import Mathlib

/-!
Shallow embedding of the level / validation core of the LudumDare54 game
(file src/level.rs): building catalog, cell model, puzzle (Level), solution
parser and the two-stage solution validator.

Conventions of the embedding:
  - Rust u8 bytes are embedded as Nat (46, 103, 120, 49, 84, 72 stand for
    the bytes of the characters dot, g, x, 1, T, H).
  - Rust usize values are embedded as Nat; the i32 arithmetic of the
    neighbor probe is embedded as Int arithmetic (exact for all grids with
    fewer than 2^31 rows and columns, which covers every representable
    level of interest).
  - A Rust panic (from_char on an unknown byte, columns() on an empty
    grid, out-of-bounds Vec indexing on a ragged grid) is embedded as the
    value none of an Option result.
  - The Rust HashMap from BuildingType to usize is embedded as a function
    from BuildingType to Option Nat: none means the key is absent, and
    HashMap equality is pointwise equality of these functions over the
    three (finitely many) possible keys.
-/

namespace LD54

/-- Embeds enum BuildingType of src/level.rs. -/
inductive BuildingType
  | House
  | Trash
  | Hermit
deriving DecidableEq, Fintype

/-- Embeds BuildingType::to_char: the byte encoding of a building. -/
def BuildingType.to_char : BuildingType → Nat
  | BuildingType.House => 49
  | BuildingType.Trash => 84
  | BuildingType.Hermit => 72

/-- Embeds BuildingType::from_char. The Rust function panics on a byte
outside the three recognised encodings; the panic is embedded as none. -/
def BuildingType.from_char (c : Nat) : Option BuildingType :=
  if c = 49 then some BuildingType.House
  else if c = 84 then some BuildingType.Trash
  else if c = 72 then some BuildingType.Hermit
  else none

/-- Embeds enum CellType of src/level.rs. -/
inductive CellType
  | Grass
  | Hole
deriving DecidableEq

/-- Embeds struct Level: the required building counts (a HashMap, embedded
as an Option-valued function) and the 2-D field of cells. -/
structure Level where
  building_count : BuildingType → Option Nat
  field : List (List CellType)

/-- Embeds Level::rows: the number of rows of the field. -/
def Level.rows (l : Level) : Nat :=
  l.field.length

/-- Embeds Level::columns. The Rust function indexes field[0], which
panics when the grid has zero rows; the panic is embedded as none. -/
def Level.columns (l : Level) : Option Nat :=
  l.field.head?.map List.length

/-- Embeds field_from_size: a rows-by-columns grid of Grass cells. -/
def field_from_size (rows columns : Nat) : List (List CellType) :=
  List.replicate rows (List.replicate columns CellType.Grass)

/-- Embeds struct Placement of src/level.rs. -/
structure Placement where
  building : BuildingType
  row : Nat
  column : Nat
deriving DecidableEq

/-- Embeds struct Solution of src/level.rs. -/
structure Solution where
  placements : List Placement
deriving DecidableEq

/-- Inner loop of parse_solution over one row: column index c counts the
position inside the row, r is the row index. Background bytes (dot, g, x)
are skipped; any other byte is decoded with from_char (whose panic on an
unknown byte propagates as none). -/
def parseRowFrom (r : Nat) : Nat → List Nat → Option (List Placement)
  | _, [] => some []
  | c, ch :: rest =>
    if [46, 103, 120].contains ch then
      parseRowFrom r (c + 1) rest
    else
      match BuildingType.from_char ch with
      | none => none
      | some b =>
        (parseRowFrom r (c + 1) rest).map (fun ps => Placement.mk b r c :: ps)

/-- Outer loop of parse_solution over the rows, r is the index of the
first row of the remaining list. -/
def parseFrom (r : Nat) : List (List Nat) → Option (List Placement)
  | [] => some []
  | row :: rest =>
    (parseRowFrom r 0 row).bind (fun ps =>
      (parseFrom (r + 1) rest).map (fun qs => ps ++ qs))

/-- Embeds parse_solution of src/level.rs: the input rows are scanned in
row-major, left-to-right order. -/
def parse_solution (s : List (List Nat)) : Option Solution :=
  (parseFrom 0 s).map Solution.mk

/-- Embeds const DROW of src/level.rs. -/
def DROW : List Int := [1, 0, -1, 0]

/-- Embeds const DCOL of src/level.rs. -/
def DCOL : List Int := [1, 0, -1, 0]

/-- Embeds enum ViolationType of src/level.rs. -/
inductive ViolationType
  | NoGrass
deriving DecidableEq

/-- Embeds struct PlacementViolation of src/level.rs. -/
structure PlacementViolation where
  building_index : Nat
  violation : ViolationType
deriving DecidableEq

/-- Embeds struct ValidationResult of src/level.rs. -/
structure ValidationResult where
  building_missing : Bool
  placement_violations : List PlacementViolation
deriving DecidableEq

/-- The per-building count of the placements of a solution, as computed
by the first loop of validate_solution. -/
def countBuildings (ps : List Placement) (b : BuildingType) : Nat :=
  ps.countP (fun p => p.building == b)

/-- The HashMap built by the first loop of validate_solution, embedded as
an Option-valued function: a key is present exactly when its count is
positive, matching or_insert(0) += 1 over the placements. -/
def countMap (ps : List Placement) : BuildingType → Option Nat :=
  fun b => if countBuildings ps b = 0 then none else some (countBuildings ps b)

/-- Pointwise equality of two embedded HashMaps over the three possible
keys; embeds the HashMap equality test of validate_solution. -/
def mapsEqual (m1 m2 : BuildingType → Option Nat) : Bool :=
  (m1 BuildingType.House == m2 BuildingType.House)
    && (m1 BuildingType.Trash == m2 BuildingType.Trash)
    && (m1 BuildingType.Hermit == m2 BuildingType.Hermit)

/-- Double indexing field[r][c]; the Rust panic on an out-of-bounds index
is embedded as none. -/
def cellAt (f : List (List CellType)) (r c : Nat) : Option CellType :=
  (f[r]?).bind (fun row => row[c]?)

/-- One bounds-checked probe of the neighbor loop of validate_solution at
absolute coordinates (nrow, ncol): some true when the probed cell is
Grass, some false when the probe is skipped as out of bounds or the cell
is not Grass, none when the Rust code would panic (columns() on an empty
grid, or indexing a ragged row). The checks mirror the short-circuit
order of the Rust condition. -/
def probeAt (lvl : Level) (nrow ncol : Int) : Option Bool :=
  if nrow < 0 ∨ (lvl.rows : Int) ≤ nrow then some false
  else if ncol < 0 then some false
  else
    match lvl.columns with
    | none => none
    | some cols =>
      if (cols : Int) ≤ ncol then some false
      else
        match cellAt lvl.field nrow.toNat ncol.toNat with
        | none => none
        | some cell => some (cell == CellType.Grass)

/-- The probe of the neighbor loop at offset index d, displacing the
placement position by (DROW[d], DCOL[d]). -/
def probeStep (lvl : Level) (row col d : Nat) : Option Bool :=
  probeAt lvl ((row : Int) + DROW.getD d 0) ((col : Int) + DCOL.getD d 0)

/-- The neighbor loop of validate_solution over the offset indices ds,
breaking at the first probe that finds Grass. -/
def probeLoop (lvl : Level) (row col : Nat) : List Nat → Option Bool
  | [] => some false
  | d :: ds =>
    match probeStep lvl row col d with
    | none => none
    | some true => some true
    | some false => probeLoop lvl row col ds

/-- The found_grass flag computed for one placement by the neighbor loop
for d in 0..4 of validate_solution. -/
def found_grass (lvl : Level) (p : Placement) : Option Bool :=
  probeLoop lvl p.row p.column [0, 1, 2, 3]

/-- Stage 2 of validate_solution: walk the placements with their indices
(i is the index of the head), record a NoGrass violation for every House
placement whose neighbor probe finds no Grass. -/
def checkPlacements (lvl : Level) : Nat → List Placement → Option (List PlacementViolation)
  | _, [] => some []
  | i, p :: ps =>
    if p.building = BuildingType.House then
      match found_grass lvl p with
      | none => none
      | some true => checkPlacements lvl (i + 1) ps
      | some false =>
        (checkPlacements lvl (i + 1) ps).map
          (fun vs => PlacementViolation.mk i ViolationType.NoGrass :: vs)
    else checkPlacements lvl (i + 1) ps

/-- Embeds validate_solution of src/level.rs: stage 1 compares the
building counts and short-circuits with building_missing = true; stage 2
checks that every House has Grass on one of the probed cells. -/
def validate_solution (solution : Solution) (level : Level) : Option ValidationResult :=
  if mapsEqual level.building_count (countMap solution.placements) then
    (checkPlacements level 0 solution.placements).map
      (fun vs => ValidationResult.mk false vs)
  else
    some (ValidationResult.mk true [])

/-- The required building counts of first_level of src/level.rs. -/
def first_level_count : BuildingType → Option Nat
  | BuildingType.House => some 5
  | BuildingType.Trash => some 1
  | BuildingType.Hermit => none

/-- Embeds first_level of src/level.rs: a 3-by-3 all-Grass puzzle
requiring five houses and one trash, paired with its reference solution
parsed from the rows 1gT / 11g / g11. -/
def first_level : Level × Option Solution :=
  (Level.mk first_level_count (field_from_size 3 3),
    parse_solution [[49, 103, 84], [49, 49, 103], [103, 49, 49]])

/-- The cells of the input rows in row-major, left-to-right order, with
the background characters removed: each kept cell is the triple
(row index, column index, character). Stated from the specification
wording of the parser, for comparison with parse_solution. -/
def rowMajorCells (s : List (List Nat)) : List (Nat × Nat × Nat) :=
  (s.enum.map (fun rp =>
    ((rp.2.enum.filter (fun cp => !([46, 103, 120].contains cp.2))).map
      (fun cp => (rp.1, cp.1, cp.2))))).flatten

/-- Decodes a list of kept cells into placements in order, one placement
per cell, failing on the first character that from_char rejects. Stated
from the specification wording of the parser. -/
def decodeAll : List (Nat × Nat × Nat) → Option (List Placement)
  | [] => some []
  | q :: qs =>
    match BuildingType.from_char q.2.2 with
    | none => none
    | some b => (decodeAll qs).map (fun ps => Placement.mk b q.1 q.2.1 :: ps)

/-- The parser as worded by the spec: enumerate the cells row-major,
drop background characters, decode every remaining character. -/
def parse_solution_spec (s : List (List Nat)) : Option Solution :=
  (decodeAll (rowMajorCells s)).map Solution.mk

/-- The length of the first row of the field, 0 for an empty field: the
value of columns() whenever columns() does not panic. -/
def firstRowLength (lvl : Level) : Nat :=
  (lvl.field.head?.getD []).length

/-- A 3-by-3 level whose center cell is Grass while its four orthogonal
neighbors are Hole; the corner cells are Grass. Requires one House. -/
def levelDiag : Level :=
  Level.mk (fun b => if b = BuildingType.House then some 1 else none)
    [[CellType.Grass, CellType.Hole, CellType.Grass],
     [CellType.Hole, CellType.Grass, CellType.Hole],
     [CellType.Grass, CellType.Hole, CellType.Grass]]

/-- A single house placed on the center cell of levelDiag. -/
def solutionDiag : Solution := Solution.mk [Placement.mk BuildingType.House 1 1]

/-- A 1-by-1 level consisting of a single Hole cell, requiring one House. -/
def levelHole : Level :=
  Level.mk (fun b => if b = BuildingType.House then some 1 else none)
    [[CellType.Hole]]

/-- A single house placed on the only cell of levelHole. -/
def solutionHole : Solution := Solution.mk [Placement.mk BuildingType.House 0 0]

/-- A 2-by-2 level with Grass only in the top-left corner, requiring two
houses. -/
def levelCorner : Level :=
  Level.mk (fun b => if b = BuildingType.House then some 2 else none)
    [[CellType.Grass, CellType.Hole], [CellType.Hole, CellType.Hole]]

/-- Two houses on levelCorner: one on the Grass corner, one beside it. -/
def solutionCorner : Solution :=
  Solution.mk [Placement.mk BuildingType.House 0 0, Placement.mk BuildingType.House 0 1]

/-- A 1-by-1 all-Grass level requiring one House and one Trash. -/
def levelTiny : Level :=
  Level.mk
    (fun b => match b with
      | BuildingType.House => some 1
      | BuildingType.Trash => some 1
      | BuildingType.Hermit => none)
    [[CellType.Grass]]

/-- A house then a trash, both on the only cell of levelTiny. -/
def solutionAB : Solution :=
  Solution.mk [Placement.mk BuildingType.House 0 0, Placement.mk BuildingType.Trash 0 0]

/-- The placements of solutionAB in the opposite order. -/
def solutionBA : Solution :=
  Solution.mk [Placement.mk BuildingType.Trash 0 0, Placement.mk BuildingType.House 0 0]

/-- A solution with only four houses and one trash, one house short of
the first_level requirement. -/
def solution4 : Solution :=
  Solution.mk
    [Placement.mk BuildingType.House 0 0, Placement.mk BuildingType.House 0 1,
     Placement.mk BuildingType.House 1 0, Placement.mk BuildingType.House 1 1,
     Placement.mk BuildingType.Trash 0 2]

/-- A level whose field has rows of unequal length: the first row has one
cell, the second has two. -/
def raggedLevel : Level :=
  Level.mk (fun _ => none) [[CellType.Grass], [CellType.Grass, CellType.Grass]]

/-!
Helper lemmas about the embedded operations.
-/

theorem mapsEqual_true_iff (m1 m2 : BuildingType → Option Nat) :
    mapsEqual m1 m2 = true ↔ ∀ b, m1 b = m2 b := by
  unfold mapsEqual
  constructor
  · intro h b
    simp only [Bool.and_eq_true, beq_iff_eq] at h
    cases b
    · exact h.1.1
    · exact h.1.2
    · exact h.2
  · intro h
    simp [h]

theorem countMap_getD (ps : List Placement) (b : BuildingType) :
    (countMap ps b).getD 0 = countBuildings ps b := by
  unfold countMap
  split_ifs with h
  · simp [h]
  · rfl

theorem columns_eq_of_rows_pos (lvl : Level) (h : 0 < lvl.rows) :
    lvl.columns = some (firstRowLength lvl) := by
  rw [Level.rows] at h
  cases hf : lvl.field with
  | nil => rw [hf] at h; simp at h
  | cons row rest => rw [Level.columns, firstRowLength, hf]; rfl

theorem probeAt_ne_true (lvl : Level) (nr nc : Int)
    (h : 0 ≤ nr → nr < (lvl.rows : Int) → 0 ≤ nc →
      nc < (firstRowLength lvl : Int) →
      cellAt lvl.field nr.toNat nc.toNat ≠ some CellType.Grass) :
    probeAt lvl nr nc ≠ some true := by
  unfold probeAt
  by_cases h1 : nr < 0 ∨ (lvl.rows : Int) ≤ nr
  · simp [h1]
  · rw [if_neg h1]
    push_neg at h1
    by_cases h2 : nc < 0
    · simp [h2]
    · rw [if_neg h2]
      push_neg at h2
      cases hcols : lvl.columns with
      | none => simp
      | some c0 =>
        dsimp only
        by_cases h3 : (c0 : Int) ≤ nc
        · simp [h3]
        · rw [if_neg h3]
          push_neg at h3
          have hrowpos : 0 < lvl.rows := by omega
          have hfr : firstRowLength lvl = c0 := by
            have := columns_eq_of_rows_pos lvl hrowpos
            rw [hcols] at this
            exact (Option.some_inj.mp this).symm
          have hcell := h h1.1 h1.2 h2 (by omega)
          cases hceq : cellAt lvl.field nr.toNat nc.toNat with
          | none => simp
          | some cell =>
            intro heq
            rw [Option.some_inj, beq_iff_eq] at heq
            exact hcell (by rw [hceq, heq])

theorem probeLoop_ne_true (lvl : Level) (row col : Nat) (ds : List Nat) :
    (∀ d ∈ ds, probeStep lvl row col d ≠ some true) →
    probeLoop lvl row col ds ≠ some true := by
  induction ds with
  | nil =>
    intro _
    simp [probeLoop]
  | cons d ds ih =>
    intro h
    cases hd : probeStep lvl row col d with
    | none => simp [probeLoop, hd]
    | some b =>
      cases b with
      | false =>
        have h2 : ∀ d2 ∈ ds, probeStep lvl row col d2 ≠ some true :=
          fun d2 hd2 => h d2 (List.mem_cons_of_mem _ hd2)
        simpa [probeLoop, hd] using ih h2
      | true => exact absurd hd (h d (List.mem_cons_self _ _))

theorem probeAt_self_grass (lvl : Level) (row col c0 : Nat)
    (hrow : row < lvl.rows) (hcols : lvl.columns = some c0) (hcol : col < c0)
    (hgrass : cellAt lvl.field row col = some CellType.Grass) :
    probeAt lvl (row : Int) (col : Int) = some true := by
  rw [probeAt, if_neg (by omega), if_neg (by omega), hcols]
  dsimp only
  rw [if_neg (by omega)]
  have hr : ((row : Int)).toNat = row := by omega
  have hc : ((col : Int)).toNat = col := by omega
  rw [hr, hc, hgrass]
  rfl

theorem found_grass_ne_false_of_step1 (lvl : Level) (row col : Nat)
    (h1 : probeStep lvl row col 1 = some true) :
    probeLoop lvl row col [0, 1, 2, 3] ≠ some false := by
  cases h0 : probeStep lvl row col 0 with
  | none => simp [probeLoop, h0]
  | some b =>
    cases b with
    | true => simp [probeLoop, h0]
    | false => simp [probeLoop, h0, h1]

theorem checkPlacements_mem (lvl : Level) (ps : List Placement) :
    ∀ (k i : Nat) (p : Placement) (vs : List PlacementViolation),
      checkPlacements lvl k ps = some vs →
      ps[i]? = some p →
      p.building = BuildingType.House →
      found_grass lvl p ≠ some true →
      PlacementViolation.mk (k + i) ViolationType.NoGrass ∈ vs := by
  induction ps with
  | nil =>
    intro k i p vs _ hip
    simp at hip
  | cons q ps ih =>
    intro k i p vs hck hip hH hfg
    cases i with
    | zero =>
      rw [List.getElem?_cons_zero, Option.some_inj] at hip
      subst hip
      rw [checkPlacements, if_pos hH] at hck
      cases hfg2 : found_grass lvl q with
      | none => rw [hfg2] at hck; cases hck
      | some b =>
        cases b with
        | true => exact absurd hfg2 hfg
        | false =>
          rw [hfg2] at hck
          cases hrec : checkPlacements lvl (k + 1) ps with
          | none => rw [hrec] at hck; cases hck
          | some vs2 =>
            rw [hrec] at hck
            simp only [Option.map_some', Option.some_inj] at hck
            rw [← hck]
            simp
    | succ j =>
      rw [List.getElem?_cons_succ] at hip
      have hk : k + (j + 1) = (k + 1) + j := by omega
      rw [hk]
      rw [checkPlacements] at hck
      by_cases hq : q.building = BuildingType.House
      · rw [if_pos hq] at hck
        cases hfq : found_grass lvl q with
        | none => rw [hfq] at hck; cases hck
        | some b =>
          cases b with
          | true =>
            rw [hfq] at hck
            exact ih (k + 1) j p vs hck hip hH hfg
          | false =>
            rw [hfq] at hck
            cases hrec : checkPlacements lvl (k + 1) ps with
            | none => rw [hrec] at hck; cases hck
            | some vs2 =>
              rw [hrec] at hck
              simp only [Option.map_some', Option.some_inj] at hck
              rw [← hck]
              exact List.mem_cons_of_mem _ (ih (k + 1) j p vs2 hrec hip hH hfg)
      · rw [if_neg hq] at hck
        exact ih (k + 1) j p vs hck hip hH hfg

theorem checkPlacements_index (lvl : Level) (ps : List Placement) :
    ∀ (k : Nat) (vs : List PlacementViolation) (v : PlacementViolation),
      checkPlacements lvl k ps = some vs → v ∈ vs →
      ∃ (j : Nat) (p : Placement), ps[j]? = some p ∧ v.building_index = k + j
        ∧ p.building = BuildingType.House ∧ found_grass lvl p = some false := by
  induction ps with
  | nil =>
    intro k vs v hck hv
    rw [checkPlacements, Option.some_inj] at hck
    rw [← hck] at hv
    cases hv
  | cons q ps ih =>
    intro k vs v hck hv
    rw [checkPlacements] at hck
    by_cases hq : q.building = BuildingType.House
    · rw [if_pos hq] at hck
      cases hfq : found_grass lvl q with
      | none => rw [hfq] at hck; cases hck
      | some b =>
        cases b with
        | true =>
          rw [hfq] at hck
          obtain ⟨j, p, hjp, hidx, hpH, hpf⟩ := ih (k + 1) vs v hck hv
          exact ⟨j + 1, p, by rw [List.getElem?_cons_succ]; exact hjp, by omega, hpH, hpf⟩
        | false =>
          rw [hfq] at hck
          cases hrec : checkPlacements lvl (k + 1) ps with
          | none => rw [hrec] at hck; cases hck
          | some vs2 =>
            rw [hrec] at hck
            simp only [Option.map_some', Option.some_inj] at hck
            rw [← hck] at hv
            rcases List.mem_cons.mp hv with hv0 | hv1
            · refine ⟨0, q, List.getElem?_cons_zero, ?_, hq, hfq⟩
              rw [hv0]
              simp
            · obtain ⟨j, p, hjp, hidx, hpH, hpf⟩ := ih (k + 1) vs2 v hrec hv1
              exact ⟨j + 1, p, by rw [List.getElem?_cons_succ]; exact hjp, by omega, hpH, hpf⟩
    · rw [if_neg hq] at hck
      obtain ⟨j, p, hjp, hidx, hpH, hpf⟩ := ih (k + 1) vs v hck hv
      exact ⟨j + 1, p, by rw [List.getElem?_cons_succ]; exact hjp, by omega, hpH, hpf⟩

theorem checkPlacements_empty_iff (lvl : Level) (ps : List Placement) :
    ∀ (k : Nat) (vs : List PlacementViolation),
      checkPlacements lvl k ps = some vs →
      (vs = [] ↔ ∀ p ∈ ps, p.building = BuildingType.House →
        found_grass lvl p ≠ some false) := by
  induction ps with
  | nil =>
    intro k vs hck
    rw [checkPlacements, Option.some_inj] at hck
    simp [← hck]
  | cons q ps ih =>
    intro k vs hck
    rw [checkPlacements] at hck
    rw [List.forall_mem_cons]
    by_cases hq : q.building = BuildingType.House
    · rw [if_pos hq] at hck
      cases hfq : found_grass lvl q with
      | none => rw [hfq] at hck; cases hck
      | some b =>
        cases b with
        | true =>
          rw [hfq] at hck
          rw [ih (k + 1) vs hck]
          simp
        | false =>
          rw [hfq] at hck
          cases hrec : checkPlacements lvl (k + 1) ps with
          | none => rw [hrec] at hck; cases hck
          | some vs2 =>
            rw [hrec] at hck
            simp only [Option.map_some', Option.some_inj] at hck
            constructor
            · intro hnil
              rw [← hck] at hnil
              cases hnil
            · intro hall
              exact absurd rfl (hall.1 hq)
    · rw [if_neg hq] at hck
      rw [ih (k + 1) vs hck]
      have hqv : q.building = BuildingType.House → found_grass lvl q ≠ some false := by
        intro hqH
        exact absurd hqH hq
      tauto

theorem snd_mem_of_mem_enumFrom {α : Type} :
    ∀ (l : List α) (n : Nat) (p : Nat × α), p ∈ l.enumFrom n → p.2 ∈ l := by
  intro l
  induction l with
  | nil =>
    intro n p hp
    simp [List.enumFrom] at hp
  | cons a l ih =>
    intro n p hp
    rw [List.enumFrom_cons] at hp
    rcases List.mem_cons.mp hp with h0 | h1
    · rw [h0]
      exact List.mem_cons_self _ _
    · exact List.mem_cons_of_mem _ (ih (n + 1) p h1)

theorem decodeAll_append (l1 l2 : List (Nat × Nat × Nat)) :
    decodeAll (l1 ++ l2)
      = (decodeAll l1).bind (fun ps => (decodeAll l2).map (fun qs => ps ++ qs)) := by
  induction l1 with
  | nil =>
    rw [List.nil_append]
    cases decodeAll l2 <;> rfl
  | cons q l1 ih =>
    rw [List.cons_append, decodeAll, decodeAll]
    cases BuildingType.from_char q.2.2 with
    | none => rfl
    | some b =>
      rw [ih]
      cases decodeAll l1 <;> cases decodeAll l2 <;> rfl

theorem parseRowFrom_eq (r : Nat) :
    ∀ (cs : List Nat) (c : Nat),
      parseRowFrom r c cs
        = decodeAll (((cs.enumFrom c).filter
            (fun cp => !([46, 103, 120].contains cp.2))).map
            (fun cp => (r, cp.1, cp.2))) := by
  intro cs
  induction cs with
  | nil => intro c; rfl
  | cons ch rest ih =>
    intro c
    rw [List.enumFrom_cons]
    by_cases hbg : [46, 103, 120].contains ch
    · rw [parseRowFrom, if_pos hbg, List.filter_cons]
      have : (!([46, 103, 120].contains (c, ch).2)) = false := by
        simp only [hbg, Bool.not_true]
      rw [this]
      simp only [Bool.false_eq_true, if_false]
      exact ih (c + 1)
    · rw [parseRowFrom, if_neg hbg, List.filter_cons]
      have : (!([46, 103, 120].contains (c, ch).2)) = true := by
        simp only [Bool.not_eq_true']
        exact Bool.of_not_eq_true hbg
      rw [this]
      simp only [if_true, List.map_cons, decodeAll]
      cases BuildingType.from_char ch with
      | none => rfl
      | some b => rw [ih (c + 1)]

theorem parseFrom_eq :
    ∀ (s : List (List Nat)) (r : Nat),
      parseFrom r s
        = decodeAll (((s.enumFrom r).map (fun rp =>
            ((rp.2.enumFrom 0).filter (fun cp => !([46, 103, 120].contains cp.2))).map
              (fun cp => (rp.1, cp.1, cp.2)))).flatten) := by
  intro s
  induction s with
  | nil => intro r; rfl
  | cons row rest ih =>
    intro r
    rw [List.enumFrom_cons, List.map_cons, List.flatten_cons, decodeAll_append]
    rw [parseFrom, parseRowFrom_eq r row 0, ih (r + 1)]

/-!
Claim theorems.
-/

/-- C1, counterexample: the four probed offsets of the neighbor loop are
NOT (+1,0), (0,0), (-1,0), (0,0) as the claim states — the DCOL entries
pair with the DROW entries to give diagonal, not vertical, offsets. -/
theorem C1_offsets_cex :
    ¬ ((List.range 4).map (fun d => (DROW.getD d 0, DCOL.getD d 0))
        = [(1, 0), (0, 0), (-1, 0), (0, 0)]) := by decide

/-- C1, amended: in Stage 2 of validate_solution the probe at offset
index d inspects the cell displaced by (DROW[d], DCOL[d]) from the
placement position, and the four probed offsets are exactly
(+1,+1), (0,0), (-1,-1), (0,0): the down-right and up-left diagonal
neighbors and the cell itself (twice); neither the horizontal nor the
vertical neighbors are ever inspected. -/
theorem C1_offsets_amended :
    (List.range 4).map (fun d => (DROW.getD d 0, DCOL.getD d 0))
        = [(1, 1), (0, 0), (-1, -1), (0, 0)]
    ∧ ∀ (lvl : Level) (row col d : Nat),
        probeStep lvl row col d
          = probeAt lvl ((row : Int) + DROW.getD d 0) ((col : Int) + DCOL.getD d 0) :=
  ⟨by decide, fun _ _ _ _ => rfl⟩

/-- C3: if the multiset of building kinds of the placements differs from
the required building_count mapping of the level on any kind (absent keys
meaning zero), then validate_solution returns building_missing = true
with an empty violation list, and in particular returns (it cannot panic,
so no spatial check is performed). -/
theorem C3_count_mismatch_short_circuits (lvl : Level) (s : Solution)
    (h : ¬ ∀ b : BuildingType,
      (lvl.building_count b).getD 0 = countBuildings s.placements b) :
    validate_solution s lvl = some (ValidationResult.mk true []) := by
  have hf : mapsEqual lvl.building_count (countMap s.placements) = false := by
    by_contra hne
    rw [Bool.not_eq_false] at hne
    apply h
    intro b
    rw [(mapsEqual_true_iff _ _).mp hne b, countMap_getD]
  simp [validate_solution, hf]

/-- C3 witness: the first_level puzzle (five houses, one trash required)
rejects a solution holding only four houses and one trash with
building_missing = true and no violations. -/
theorem C3_count_mismatch_short_circuits_witness :
    validate_solution solution4 first_level.1 = some (ValidationResult.mk true []) :=
  C3_count_mismatch_short_circuits first_level.1 solution4 (by decide)

/-- C6: from_char inverts to_char on every BuildingType variant, and
to_char is one-to-one, sending House, Trash, Hermit to the bytes of
1, T, H respectively. -/
theorem C6_char_roundtrip :
    (∀ b : BuildingType, BuildingType.from_char b.to_char = some b)
    ∧ (∀ a b : BuildingType, a.to_char = b.to_char → a = b)
    ∧ BuildingType.to_char BuildingType.House = 49
    ∧ BuildingType.to_char BuildingType.Trash = 84
    ∧ BuildingType.to_char BuildingType.Hermit = 72 := by decide

/-- C6 witness: the round trip and the injectivity instantiated on
concrete variants. -/
theorem C6_char_roundtrip_witness :
    BuildingType.from_char (BuildingType.to_char BuildingType.Trash)
        = some BuildingType.Trash
    ∧ BuildingType.House = BuildingType.House :=
  ⟨C6_char_roundtrip.1 BuildingType.Trash,
    C6_char_roundtrip.2.1 BuildingType.House BuildingType.House rfl⟩

/-- C8: for positive dimensions, field_from_size r c has exactly r rows,
every row has length exactly c, and every cell is Grass. -/
theorem C8_field_from_size (r c : Nat) (hr : 0 < r) (hc : 0 < c) :
    (field_from_size r c).length = r
    ∧ ∀ row ∈ field_from_size r c,
        row.length = c ∧ ∀ cell ∈ row, cell = CellType.Grass := by
  refine ⟨List.length_replicate r _, ?_⟩
  intro row hrow
  rw [field_from_size, List.mem_replicate] at hrow
  rw [hrow.2]
  exact ⟨List.length_replicate c _, fun cell hcell => (List.mem_replicate.mp hcell).2⟩

/-- C8 witness: the 2-by-3 all-Grass field has two rows. -/
theorem C8_field_from_size_witness : (field_from_size 2 3).length = 2 :=
  (C8_field_from_size 2 3 (by decide) (by decide)).1

/-- C9: from_char fails (the Rust panic, embedded as none) exactly on the
bytes outside the encodings of 1, T, H, and on those three bytes returns
the corresponding BuildingType. -/
theorem C9_from_char_total_on_known (ch : Nat) :
    (BuildingType.from_char ch = none ↔ ¬(ch = 49 ∨ ch = 84 ∨ ch = 72))
    ∧ BuildingType.from_char 49 = some BuildingType.House
    ∧ BuildingType.from_char 84 = some BuildingType.Trash
    ∧ BuildingType.from_char 72 = some BuildingType.Hermit := by
  refine ⟨?_, by decide, by decide, by decide⟩
  unfold BuildingType.from_char
  split_ifs with h1 h2 h3 <;> simp_all

/-- C9 witness: byte 50 is not a recognized building encoding, so
from_char fails on it. -/
theorem C9_from_char_total_on_known_witness : BuildingType.from_char 50 = none :=
  (C9_from_char_total_on_known 50).1.mpr (by decide)

/-- C10: columns reads the length of the first row only; it fails (the
Rust panic on field[0], embedded as none) exactly when the grid has zero
rows, and on a non-empty grid returns the length of the first row with no
constraint on the lengths of the remaining rows. -/
theorem C10_columns_first_row :
    (∀ l : Level, l.columns = none ↔ l.field = [])
    ∧ (∀ (l : Level) (row : List CellType) (rest : List (List CellType)),
        l.field = row :: rest → l.columns = some row.length) := by
  constructor
  · intro l
    rw [Level.columns]
    cases h : l.field <;> simp [h]
  · intro l row rest h
    rw [Level.columns, h]
    rfl

/-- C10 witness: on a ragged grid whose first row has one cell and whose
second row has two, columns returns 1, ignoring the second row. -/
theorem C10_columns_first_row_witness : raggedLevel.columns = some 1 :=
  C10_columns_first_row.2 raggedLevel [CellType.Grass]
    [[CellType.Grass, CellType.Grass]] rfl

/-- C2, counterexample: on levelDiag the house at (1,1) has all four
in-bounds orthogonal neighbors equal to Hole and the counts reconcile,
yet validate_solution reports no violation at all, because the code
probes the diagonals and the cell itself rather than the orthogonal
neighbors. -/
theorem C2_surrounded_house_cex :
    cellAt levelDiag.field 0 1 = some CellType.Hole
    ∧ cellAt levelDiag.field 2 1 = some CellType.Hole
    ∧ cellAt levelDiag.field 1 0 = some CellType.Hole
    ∧ cellAt levelDiag.field 1 2 = some CellType.Hole
    ∧ mapsEqual levelDiag.building_count (countMap solutionDiag.placements) = true
    ∧ validate_solution solutionDiag levelDiag
        = some (ValidationResult.mk false []) := by decide

/-- C2, amended: for every puzzle and solution that pass Stage 1 count
reconciliation, if every reachable probed cell of a House placement —
the down-right diagonal, the cell itself, and the up-left diagonal, any
offset falling outside the checked bounds excluded — is not Grass, then
whenever validate_solution returns a result, that result has
building_missing = false and contains a PlacementViolation with violation
NoGrass and building_index equal to the index of that house in the
placement sequence. -/
theorem C2_surrounded_house_flagged_amended (lvl : Level) (s : Solution)
    (i : Nat) (p : Placement)
    (hip : s.placements[i]? = some p)
    (hH : p.building = BuildingType.House)
    (hcount : mapsEqual lvl.building_count (countMap s.placements) = true)
    (hhole : ∀ d, d < 4 →
      (0 ≤ (p.row : Int) + DROW.getD d 0
        ∧ (p.row : Int) + DROW.getD d 0 < (lvl.rows : Int)
        ∧ 0 ≤ (p.column : Int) + DCOL.getD d 0
        ∧ (p.column : Int) + DCOL.getD d 0 < (firstRowLength lvl : Int)) →
      cellAt lvl.field ((p.row : Int) + DROW.getD d 0).toNat
        ((p.column : Int) + DCOL.getD d 0).toNat ≠ some CellType.Grass) :
    ∀ r : ValidationResult, validate_solution s lvl = some r →
      r.building_missing = false
      ∧ PlacementViolation.mk i ViolationType.NoGrass ∈ r.placement_violations := by
  intro r hr
  have hfg : found_grass lvl p ≠ some true := by
    rw [found_grass]
    apply probeLoop_ne_true
    intro d hd
    have hd4 : d < 4 := by
      simp only [List.mem_cons, List.not_mem_nil, or_false] at hd
      rcases hd with rfl | rfl | rfl | rfl <;> decide
    exact probeAt_ne_true lvl _ _ (fun h1 h2 h3 h4 => hhole d hd4 ⟨h1, h2, h3, h4⟩)
  rw [validate_solution, if_pos hcount] at hr
  cases hck : checkPlacements lvl 0 s.placements with
  | none => rw [hck] at hr; cases hr
  | some vs =>
    rw [hck] at hr
    simp only [Option.map_some', Option.some_inj] at hr
    rw [← hr]
    refine ⟨rfl, ?_⟩
    have := checkPlacements_mem lvl s.placements 0 i p vs hck hip hH hfg
    simpa using this

/-- C2 witness: on the one-cell all-Hole level requiring one house, the
house at (0,0) is flagged with NoGrass at index 0. -/
theorem C2_surrounded_house_flagged_amended_witness :
    (ValidationResult.mk false
        [PlacementViolation.mk 0 ViolationType.NoGrass]).building_missing = false
    ∧ PlacementViolation.mk 0 ViolationType.NoGrass
        ∈ (ValidationResult.mk false
            [PlacementViolation.mk 0 ViolationType.NoGrass]).placement_violations :=
  C2_surrounded_house_flagged_amended levelHole solutionHole 0
    (Placement.mk BuildingType.House 0 0)
    (by decide) (by decide) (by decide) (by decide)
    (ValidationResult.mk false [PlacementViolation.mk 0 ViolationType.NoGrass])
    (by decide)

/-- C4: a House placement whose own position lies inside the grid bounds
and whose own cell is Grass never receives a violation: whenever
validate_solution returns a result, no recorded violation carries the
index of that placement. This holds because offset index 1 probes the
cell of the placement itself. -/
theorem C4_house_on_grass_never_flagged (lvl : Level) (s : Solution)
    (i : Nat) (p : Placement)
    (hip : s.placements[i]? = some p)
    (hH : p.building = BuildingType.House)
    (hrow : p.row < lvl.rows)
    (hcol : p.column < firstRowLength lvl)
    (hgrass : cellAt lvl.field p.row p.column = some CellType.Grass) :
    ∀ r : ValidationResult, validate_solution s lvl = some r →
      ∀ v ∈ r.placement_violations, v.building_index ≠ i := by
  intro r hr v hv hvi
  rw [validate_solution] at hr
  by_cases hm : mapsEqual lvl.building_count (countMap s.placements) = true
  · rw [if_pos hm] at hr
    cases hck : checkPlacements lvl 0 s.placements with
    | none => rw [hck] at hr; cases hr
    | some vs =>
      rw [hck] at hr
      simp only [Option.map_some', Option.some_inj] at hr
      rw [← hr] at hv
      obtain ⟨j, q, hjq, hidx, hqH, hqfg⟩ :=
        checkPlacements_index lvl s.placements 0 vs v hck hv
      have hji : j = i := by omega
      rw [hji, hip, Option.some_inj] at hjq
      rw [hjq] at hrow hcol hgrass
      have hstep : probeStep lvl q.row q.column 1 = some true := by
        have hcols : lvl.columns = some (firstRowLength lvl) :=
          columns_eq_of_rows_pos lvl (by omega)
        have hps : probeStep lvl q.row q.column 1
            = probeAt lvl (q.row : Int) (q.column : Int) := by
          rw [probeStep]
          norm_num [DROW, DCOL]
        rw [hps]
        exact probeAt_self_grass lvl q.row q.column (firstRowLength lvl)
          hrow hcols hcol hgrass
      rw [found_grass] at hqfg
      exact found_grass_ne_false_of_step1 lvl q.row q.column hstep hqfg
  · rw [if_neg hm] at hr
    rw [Option.some_inj] at hr
    rw [← hr] at hv
    cases hv

/-- C4 witness: on levelCorner the house at index 0 sits on the Grass
corner, and the single violation recorded by validate_solution carries
index 1, not 0. -/
theorem C4_house_on_grass_never_flagged_witness :
    (PlacementViolation.mk 1 ViolationType.NoGrass).building_index ≠ 0 :=
  C4_house_on_grass_never_flagged levelCorner solutionCorner 0
    (Placement.mk BuildingType.House 0 0)
    (by decide) (by decide) (by decide) (by decide) (by decide)
    (ValidationResult.mk false [PlacementViolation.mk 1 ViolationType.NoGrass])
    (by decide)
    (PlacementViolation.mk 1 ViolationType.NoGrass)
    (by decide)

/-- C5: for one puzzle and two solutions whose placement sequences are
permutations of each other, whenever validate_solution returns on both,
the two results agree on building_missing, and one violation list is
empty exactly when the other is. -/
theorem C5_permutation_invariance (lvl : Level) (s1 s2 : Solution)
    (hperm : s1.placements.Perm s2.placements) :
    ∀ r1 r2 : ValidationResult,
      validate_solution s1 lvl = some r1 → validate_solution s2 lvl = some r2 →
      r1.building_missing = r2.building_missing
      ∧ (r1.placement_violations = [] ↔ r2.placement_violations = []) := by
  intro r1 r2 h1 h2
  have hcm : countMap s1.placements = countMap s2.placements := by
    funext b
    rw [countMap, countMap]
    rw [show countBuildings s1.placements b = countBuildings s2.placements b from
      hperm.countP_eq _]
  rw [validate_solution] at h1 h2
  rw [hcm] at h1
  by_cases hm : mapsEqual lvl.building_count (countMap s2.placements) = true
  · rw [if_pos hm] at h1 h2
    cases hc1 : checkPlacements lvl 0 s1.placements with
    | none => rw [hc1] at h1; cases h1
    | some vs1 =>
      cases hc2 : checkPlacements lvl 0 s2.placements with
      | none => rw [hc2] at h2; cases h2
      | some vs2 =>
        rw [hc1] at h1
        rw [hc2] at h2
        simp only [Option.map_some', Option.some_inj] at h1 h2
        rw [← h1, ← h2]
        refine ⟨rfl, ?_⟩
        rw [checkPlacements_empty_iff lvl s1.placements 0 vs1 hc1,
          checkPlacements_empty_iff lvl s2.placements 0 vs2 hc2]
        constructor
        · intro h p hp
          exact h p (hperm.mem_iff.mpr hp)
        · intro h p hp
          exact h p (hperm.mem_iff.mp hp)
  · rw [if_neg hm] at h1 h2
    rw [Option.some_inj] at h1
    rw [Option.some_inj] at h2
    rw [← h1, ← h2]
    exact ⟨rfl, Iff.rfl⟩

/-- C5 witness: on the one-cell levelTiny the solutions house-then-trash
and trash-then-house both validate to the same result. -/
theorem C5_permutation_invariance_witness :
    (ValidationResult.mk false []).building_missing
        = (ValidationResult.mk false []).building_missing
    ∧ ((ValidationResult.mk false []).placement_violations = []
        ↔ (ValidationResult.mk false []).placement_violations = []) :=
  C5_permutation_invariance levelTiny solutionAB solutionBA (by decide)
    (ValidationResult.mk false []) (ValidationResult.mk false [])
    (by decide) (by decide)

/-- C7: parse_solution agrees everywhere with the specification reading
of the parser (enumerate the cells in row-major, left-to-right order,
record nothing for the background characters, append a decoded placement
for every other character); on the sample rows 1T / H1 it yields exactly
the four placements in row-major order, and on rows holding only
background characters it yields an empty placement sequence. -/
theorem C7_parse_row_major :
    (∀ s : List (List Nat), parse_solution s = parse_solution_spec s)
    ∧ parse_solution [[49, 84], [72, 49]]
        = some (Solution.mk
            [Placement.mk BuildingType.House 0 0, Placement.mk BuildingType.Trash 0 1,
             Placement.mk BuildingType.Hermit 1 0, Placement.mk BuildingType.House 1 1])
    ∧ ∀ s : List (List Nat),
        (∀ row ∈ s, ∀ ch ∈ row, ch = 46 ∨ ch = 103 ∨ ch = 120) →
        parse_solution s = some (Solution.mk []) := by
  refine ⟨?_, by decide, ?_⟩
  · intro s
    rw [parse_solution, parse_solution_spec, rowMajorCells, parseFrom_eq]
    rfl
  · intro s hbg
    rw [parse_solution, parseFrom_eq]
    have hnil : (((s.enumFrom 0).map (fun rp =>
        ((rp.2.enumFrom 0).filter (fun cp => !([46, 103, 120].contains cp.2))).map
          (fun cp => (rp.1, cp.1, cp.2)))).flatten)
        = ([] : List (Nat × Nat × Nat)) := by
      rw [List.flatten_eq_nil_iff]
      intro l hl
      rw [List.mem_map] at hl
      obtain ⟨rp, hrp, hlv⟩ := hl
      rw [← hlv, List.map_eq_nil_iff, List.filter_eq_nil_iff]
      intro cp hcp
      have hrow : rp.2 ∈ s := snd_mem_of_mem_enumFrom s 0 rp hrp
      have hch : cp.2 ∈ rp.2 := snd_mem_of_mem_enumFrom rp.2 0 cp hcp
      have hb := hbg rp.2 hrow cp.2 hch
      simp only [Bool.not_eq_true', Bool.not_eq_false]
      rcases hb with h | h | h <;> simp [h, List.contains]
    rw [hnil]
    rfl

/-- C7 witness: two rows of background characters parse to the empty
placement sequence. -/
theorem C7_parse_row_major_witness :
    parse_solution [[46, 103, 120], [120]] = some (Solution.mk []) :=
  C7_parse_row_major.2.2 [[46, 103, 120], [120]] (by decide)

end LD54
